import Mathlib

/-!
Shallow embedding of `analyze.py` from the `solana-repo-scanner` repository.

The scanner fetches GitHub repository metadata, commit history, language
statistics, README content and the root file listing, then runs six heuristic
checks that mutate a shared state (an integer score starting at 100 and an
append-only list of red-flag strings), clamps the score to [0, 100] and maps
it to a risk tier.

Modelling conventions:
- HTTP is an external collaborator.  The outcome of each endpoint is an input of
  type `Resp α`: either `exc` (a network exception raised by `requests.get`)
  or `ok status payload` (a response with its HTTP status code and its parsed
  body, typed by the API schema of the endpoint).
- The requests that a scan issues are reported alongside the result as a list
  of URL strings, so that "no fetch is attempted" is a statable property.
- Python integers are `Int`/`Nat`; the single float division in
  `check_code_to_commit_ratio` is only used in comparisons against integer
  thresholds, which are modelled exactly on the rationals via
  cross-multiplication (`total / n > k` iff `total > k * n`).
- `datetime.strptime(_, "%Y-%m-%dT%H:%M:%SZ")` and `timedelta.days` are
  modelled by `parseDate` (a proleptic-Gregorian timestamp in seconds, as in
  `datetime.toordinal`) and floor division by 86400; `datetime.utcnow()` is
  an explicit `now` parameter.
- Python `str.lower` is modelled with `Char.toLower` (identical on the ASCII
  data the scanner handles); `in` on strings is substring containment.
-/

/-- A single character holding the ASCII apostrophe, used to build the
buzzword list without an apostrophe literal inside a string. -/
def apostrophe : Char := Char.ofNat 39

/-- Outcome of one `requests.get` call: a raised exception, or a response
carrying the HTTP status code and the (schema-typed) parsed payload. -/
inductive Resp (α : Type) where
  | exc : Resp α
  | ok (status : Nat) (payload : α) : Resp α
deriving DecidableEq

/-- Repository metadata as consumed from the `/repos/{owner}/{repo}` JSON:
the fields the scanner reads, with `Option` for nullable fields. -/
structure RepoData where
  stargazers_count : Nat
  forks_count : Nat
  watchers_count : Nat
  open_issues_count : Nat
  fork : Bool
  license : Option String
  description : Option String
  language : Option String
deriving DecidableEq

/-- One element of the commit-list JSON, restricted to the two leaves the
scanner reads (`commit.author.date` and `commit.author.email`); a `none`
models a missing key, whose access raises and is swallowed by the bare
`except` blocks of the source. -/
structure CommitObj where
  date : Option String
  email : Option String
deriving DecidableEq

/-- One element of the root contents listing (`name` and `type` fields). -/
structure ContentItem where
  name : String
  itemType : String
deriving DecidableEq

/-- The outcomes of the five collaborator endpoints used by one scan. -/
structure Env where
  repoResp : Resp RepoData
  commitsResp : Resp (List CommitObj)
  langResp : Resp (List (String × Nat))
  readmeMain : Resp String
  readmeMaster : Resp String
  contentsResp : Resp (List ContentItem)
deriving DecidableEq

/-- The mutable aggregate threaded through the checks: `self.score` and
`self.red_flags`. -/
structure ScanState where
  score : Int
  red_flags : List String
deriving DecidableEq

/-- JSON-like values, used for the dictionary returned by `analyze`. -/
inductive JVal where
  | jnum (n : Int)
  | jstr (s : String)
  | jarr (l : List JVal)
  | jobj (l : List (String × JVal))

/-! ## String helpers (Python `in`, `.lower()`, number formatting) -/

/-- Substring containment: Python `pat in hay` for strings. -/
def containsSub (pat : List Char) : List Char → Bool
  | [] => pat.isEmpty
  | c :: cs => pat.isPrefixOf (c :: cs) || containsSub pat cs

/-- Python `pat in hay` on strings. -/
def strContains (hay pat : String) : Bool := containsSub pat.toList hay.toList

/-- Python `str.lower()` (ASCII-faithful). -/
def toLowerStr (s : String) : String := String.mk (s.toList.map Char.toLower)

/-- Insert thousands separators into a reversed digit list (helper for the
Python `:,` format specifier). -/
def group3 : List Char → List Char
  | a :: b :: c :: rest =>
    if rest.isEmpty then [a, b, c] else a :: b :: c :: ',' :: group3 rest
  | l => l

/-- Python `f"{n:,}"` for a natural number. -/
def groupDigits (n : Nat) : String := String.mk ((group3 (toString n).toList.reverse).reverse)

/-- Display rendering of `f"{total/n:,.0f}"`: the float ratio rounded to an
integer (half away from zero) with thousands grouping.  Display-only; no
heuristic condition reads this string. -/
def fmtRatio (total n : Nat) : String := groupDigits ((2 * total + n) / (2 * n))

/-! ## Date handling (`strptime` + `timedelta.days`) -/

/-- Numeric value of two decimal digit characters. -/
def d2 (a b : Char) : Nat := (a.toNat - 48) * 10 + (b.toNat - 48)

/-- Numeric value of four decimal digit characters. -/
def d4 (a b c d : Char) : Nat := ((a.toNat - 48) * 10 + (b.toNat - 48)) * 100 + d2 c d

/-- Gregorian leap-year test. -/
def isLeap (y : Nat) : Bool := (y % 4 == 0 && y % 100 != 0) || y % 400 == 0

/-- Days in a month of the proleptic Gregorian calendar. -/
def daysInMonth (y m : Nat) : Nat :=
  if m = 2 then (if isLeap y then 29 else 28)
  else if m = 4 ∨ m = 6 ∨ m = 9 ∨ m = 11 then 30 else 31

/-- Days in year `y` strictly before month `m`. -/
def daysBeforeMonth (y m : Nat) : Nat :=
  (List.range (m - 1)).foldl (fun acc i => acc + daysInMonth y (i + 1)) 0

/-- Proleptic-Gregorian ordinal of a date (as `datetime.date.toordinal`). -/
def toOrdinal (y m d : Nat) : Nat :=
  365 * (y - 1) + (y - 1) / 4 - (y - 1) / 100 + (y - 1) / 400 + daysBeforeMonth y m + d

/-- Timestamp in seconds of a valid date-time on the ordinal scale. -/
def toSeconds (y mo dd h mi se : Nat) : Int :=
  ((toOrdinal y mo dd * 86400 + h * 3600 + mi * 60 + se : Nat) : Int)

/-- `datetime.strptime(s, "%Y-%m-%dT%H:%M:%SZ")`, returning the timestamp in
seconds, or `none` when the call would raise `ValueError`. -/
def parseDate (s : String) : Option Int :=
  match s.toList with
  | [y1, y2, y3, y4, '-', mo1, mo2, '-', dd1, dd2, 'T',
     h1, h2, ':', mi1, mi2, ':', se1, se2, 'Z'] =>
    if y1.isDigit && y2.isDigit && y3.isDigit && y4.isDigit &&
       mo1.isDigit && mo2.isDigit && dd1.isDigit && dd2.isDigit &&
       h1.isDigit && h2.isDigit && mi1.isDigit && mi2.isDigit &&
       se1.isDigit && se2.isDigit then
      let y := d4 y1 y2 y3 y4
      let mo := d2 mo1 mo2
      let dd := d2 dd1 dd2
      let h := d2 h1 h2
      let mi := d2 mi1 mi2
      let se := d2 se1 se2
      if 1 ≤ y ∧ 1 ≤ mo ∧ mo ≤ 12 ∧ 1 ≤ dd ∧ dd ≤ daysInMonth y mo ∧
         h ≤ 23 ∧ mi ≤ 59 ∧ se ≤ 59 then
        some (toSeconds y mo dd h mi se)
      else none
    else none
  | _ => none

/-! ## URL parsing (`parse_url`, re.search over `github\.com/([^/]+)/([^/]+)`) -/

/-- The literal part of the URL pattern. -/
def ghPat : List Char := "github.com/".toList

/-- The regex character class `[^/]`. -/
def notSlash (c : Char) : Bool := c != '/'

/-- Attempt the pattern `github\.com/([^/]+)/([^/]+)` anchored at the start
of `l`; returns the two (greedy) capture groups. -/
def matchAt (l : List Char) : Option (List Char × List Char) :=
  if ghPat.isPrefixOf l then
    match (l.drop ghPat.length).dropWhile notSlash with
    | '/' :: r2 =>
      if (l.drop ghPat.length).takeWhile notSlash = [] then none
      else if r2.takeWhile notSlash = [] then none
      else some ((l.drop ghPat.length).takeWhile notSlash, r2.takeWhile notSlash)
    | _ => none
  else none

/-- `re.search`: try the pattern at each position, leftmost first. -/
def searchGh : List Char → Option (List Char × List Char)
  | [] => none
  | c :: cs =>
    match matchAt (c :: cs) with
    | some r => some r
    | none => searchGh cs

/-- Python `s.replace(".git", "")`: remove every non-overlapping occurrence
of `".git"`, scanning left to right. -/
def removeDotGit : List Char → List Char
  | '.' :: 'g' :: 'i' :: 't' :: rest => removeDotGit rest
  | c :: cs => c :: removeDotGit cs
  | [] => []

/-- `SolanaRepoScanner.parse_url`: extract `(owner, repo)` from the URL, the
repo name with `".git"` occurrences removed; `none` models the `False`
return on a failed match. -/
def parse_url (s : String) : Option (String × String) :=
  match searchGh s.toList with
  | none => none
  | some (o, n) => some (String.mk o, String.mk (removeDotGit n))

/-- The input contains a substring `github.com/<owner>/<name>` with `owner`
and `name` nonempty runs of non-slash characters. -/
def containsPattern (l : List Char) : Prop :=
  ∃ pre o n suf : List Char,
    l = pre ++ (ghPat ++ (o ++ ('/' :: (n ++ suf)))) ∧
    o ≠ [] ∧ n ≠ [] ∧ (∀ c ∈ o, c ≠ '/') ∧ (∀ c ∈ n, c ≠ '/')

/-! ## Heuristic checks -/

/-- The first buzzword of the marketing list, built with `apostrophe`. -/
def worldsFirst : String := "world" ++ String.mk [apostrophe] ++ "s first"

/-- The fixed buzzword list of `check_description_and_readme`. -/
def marketing_terms : List String :=
  [worldsFirst, "revolutionary", "game-changing", "unprecedented",
   "next-generation", "cutting-edge", "industry-leading", "paradigm shift",
   "disruptive", "groundbreaking", "80%", "10x", "100x"]

/-- The fixed funding-keyword list. -/
def funding_keywords : List String :=
  ["seeking", "grant", "subsidy", "funding", "donate",
   "support us", "contribute financially", "sponsorship"]

/-- The fixed token-sale keyword list. -/
def token_keywords : List String :=
  ["buy our token", "token sale", "ico", "presale", "airdrop"]

/-- The description string the checks operate on:
`repo_data.get("description", "").lower() if repo_data.get("description") else ""`. -/
def descString (o : Option String) : String :=
  match o with
  | none => ""
  | some s => toLowerStr s

/-- Commit-volume block of `check_commit_patterns` (lines 68-77). -/
def commitCountStep (commits : List CommitObj) (st : ScanState) : ScanState :=
  let n := commits.length
  if n < 3 then
    ⟨st.score - 35, st.red_flags ++ [s!"Only {n} commits - extremely suspicious"]⟩
  else if n < 10 then
    ⟨st.score - 25, st.red_flags ++ [s!"Only {n} commits - suspiciously low for production code"]⟩
  else if n < 25 then
    ⟨st.score - 15, st.red_flags ++ [s!"{n} commits - below average for established project"]⟩
  else st

/-- Commit-recency block of `check_commit_patterns` (lines 79-98): parses the date of the
first commit inside `try`, computes `(utcnow() - date).days`, and
skips silently on a missing key or a `ValueError`. -/
def commitRecencyStep (commits : List CommitObj) (now : Int) (st : ScanState) : ScanState :=
  match commits with
  | [] => st
  | c :: _ =>
    match c.date.bind parseDate with
    | none => st
    | some t =>
      let days : Int := (now - t).fdiv 86400
      if days > 365 then
        ⟨st.score - 30, st.red_flags ++ [s!"Abandoned: Last commit was {days} days ago"]⟩
      else if days > 180 then
        ⟨st.score - 20, st.red_flags ++ [s!"Stale: Last commit was {days} days ago"]⟩
      else if days > 90 then
        ⟨st.score - 10, st.red_flags ++ [s!"Inactive: Last commit was {days} days ago"]⟩
      else st

/-- Single-contributor block of `check_commit_patterns` (lines 100-112): the
author set of the first 50 commits, with the whole block skipped when any
email access raises. -/
def commitAuthorStep (commits : List CommitObj) (st : ScanState) : ScanState :=
  if commits.length ≥ 5 then
    if (commits.take 50).all (fun c => c.email.isSome) then
      let authors := ((commits.take 50).filterMap (fun c => c.email)).dedup
      if authors.length = 1 ∧ commits.length > 20 then
        ⟨st.score - 15,
         st.red_flags ++ ["Single contributor with many commits - may indicate copied project"]⟩
      else st
    else st
  else st

/-- `SolanaRepoScanner.check_commit_patterns`. -/
def check_commit_patterns (commits : List CommitObj) (now : Int) (st : ScanState) : ScanState :=
  commitAuthorStep commits (commitRecencyStep commits now (commitCountStep commits st))

/-- `SolanaRepoScanner.check_community_engagement` (`watchers_count` and
`open_issues_count` are read in the source but never used). -/
def check_community_engagement (d : RepoData) (st : ScanState) : ScanState :=
  let stars := d.stargazers_count
  let st := if stars = 0 then
      ⟨st.score - 20, st.red_flags ++ ["0 stars - no community validation"]⟩
    else if stars < 5 then
      ⟨st.score - 10, st.red_flags ++ [s!"Only {stars} stars - minimal community interest"]⟩
    else st
  let st := if d.forks_count = 0 then
      ⟨st.score - 15, st.red_flags ++ ["0 forks - no community contribution or trust"]⟩
    else st
  if d.fork then
    ⟨st.score - 10, st.red_flags ++ ["Repository is a fork - may not be original work"]⟩
  else st

/-- Flag text of the extreme-ratio branch. -/
def ratioFlagExtreme (total n : Nat) : String :=
  let r := fmtRatio total n
  let t := groupDigits total
  s!"Extreme code-to-commit ratio: {r} LOC/commit ({t} LOC ÷ {n} commits) - likely copy-pasted"

/-- Flag text of the high-ratio branch. -/
def ratioFlagHigh (total n : Nat) : String :=
  let r := fmtRatio total n
  let t := groupDigits total
  s!"High code-to-commit ratio: {r} LOC/commit ({t} LOC ÷ {n} commits) - suspicious"

/-- Flag text of the elevated-ratio branch. -/
def ratioFlagElevated (total n : Nat) : String :=
  let r := fmtRatio total n
  s!"Elevated code-to-commit ratio: {r} LOC/commit - review recommended"

/-- `SolanaRepoScanner.check_code_to_commit_ratio`: float threshold tests
`total/n > k` are modelled exactly as `total > k * n`. -/
def check_code_to_commit_ratio (langResp : Resp (List (String × Nat)))
    (commits : List CommitObj) (st : ScanState) : ScanState :=
  match langResp with
  | .exc => st
  | .ok status langs =>
    if status = 200 then
      let total := (langs.map Prod.snd).sum
      let n := commits.length
      if total > 0 ∧ n > 0 then
        if total > 50000 * n then
          ⟨st.score - 40, st.red_flags ++ [ratioFlagExtreme total n]⟩
        else if total > 10000 * n then
          ⟨st.score - 25, st.red_flags ++ [ratioFlagHigh total n]⟩
        else if total > 5000 * n then
          ⟨st.score - 15, st.red_flags ++ [ratioFlagElevated total n]⟩
        else st
      else st
    else st

/-- Marketing-language block of `check_description_and_readme` (lines 177-192). -/
def marketingStep (desc : String) (st : ScanState) : ScanState :=
  let c := marketing_terms.countP (fun t => strContains desc t)
  if c ≥ 2 then
    ⟨st.score - 15, st.red_flags ++ [s!"Heavy marketing language in description ({c} buzzwords)"]⟩
  else if c = 1 then
    ⟨st.score - 8, st.red_flags ++ ["Marketing buzzwords detected in description"]⟩
  else st

/-- Funding-language block over the lowered README text (lines 201-213). -/
def fundingStep (readme : String) (st : ScanState) : ScanState :=
  let c := funding_keywords.countP (fun t => strContains readme t)
  if c ≥ 3 then
    ⟨st.score - 20, st.red_flags ++ [s!"Heavy funding-seeking language in README ({c} instances)"]⟩
  else if c ≥ 2 then
    ⟨st.score - 12, st.red_flags ++ ["Funding-seeking language detected in README"]⟩
  else st

/-- Token-sale block over the lowered README text (lines 215-219). -/
def tokenStep (readme : String) (st : ScanState) : ScanState :=
  if token_keywords.any (fun t => strContains readme t) then
    ⟨st.score - 25, st.red_flags ++ ["Token sale/ICO language detected - potential scam"]⟩
  else st

/-- README-length block (lines 221-225). -/
def lengthStep (readme : String) (st : ScanState) : ScanState :=
  if readme.length < 200 then
    ⟨st.score - 10, st.red_flags ++ ["Very short README - insufficient documentation"]⟩
  else st

/-- README block of `check_description_and_readme` (lines 194-235): the
`main`-branch fetch is wrapped in `try/except`; only a raised exception (not
a non-200 status) reaches the `except` handler that tries `master` and flags
a missing README when `master` returns a non-200 status. -/
def readmeStep (env : Env) (st : ScanState) : ScanState :=
  match env.readmeMain with
  | .ok status text =>
    if status = 200 then
      let readme := toLowerStr text
      lengthStep readme (tokenStep readme (fundingStep readme st))
    else st
  | .exc =>
    match env.readmeMaster with
    | .ok status _ =>
      if status ≠ 200 then
        ⟨st.score - 15, st.red_flags ++ ["No README.md found - poor documentation"]⟩
      else st
    | .exc => st

/-- `SolanaRepoScanner.check_description_and_readme`. -/
def check_description_and_readme (env : Env) (d : RepoData) (st : ScanState) : ScanState :=
  readmeStep env (marketingStep (descString d.description) st)

/-- `SolanaRepoScanner.check_solana_specific_indicators`. -/
def check_solana_specific_indicators (contentsResp : Resp (List ContentItem))
    (d : RepoData) (repo : String) (st : ScanState) : ScanState :=
  match contentsResp with
  | .exc => st
  | .ok status items =>
    if status = 200 then
      let files := (items.filter (fun it => it.itemType == "file")).map (fun it => it.name)
      let has_anchor := files.contains "Anchor.toml"
      let has_cargo := files.contains "Cargo.toml"
      let has_package_json := files.contains "package.json"
      let description := descString d.description
      if strContains description "solana" || strContains (toLowerStr repo) "solana" then
        if !(has_anchor || has_cargo || has_package_json) then
          ⟨st.score - 20,
           st.red_flags ++ ["Claims to be Solana project but missing Anchor/Cargo/package.json"]⟩
        else st
      else st
    else st

/-- `SolanaRepoScanner.check_license_and_docs`. -/
def check_license_and_docs (d : RepoData) (st : ScanState) : ScanState :=
  if d.license.isNone then
    ⟨st.score - 10, st.red_flags ++ ["No license - unprofessional or incomplete project"]⟩
  else st

/-- `SolanaRepoScanner.get_risk_level`. -/
def get_risk_level (score : Int) : String × String :=
  if score ≥ 80 then ("LOW RISK", "✅")
  else if score ≥ 60 then ("MEDIUM-LOW RISK", "⚠️")
  else if score ≥ 40 then ("MEDIUM-HIGH RISK", "⚠️")
  else if score ≥ 20 then ("HIGH RISK", "🚨")
  else ("CRITICAL RISK", "🔴")

/-! ## The scan pipeline (`analyze`) and its request log -/

/-- URL of the repository-metadata endpoint. -/
def apiRepoUrl (owner repo : String) : String :=
  "https://api.github.com/repos/" ++ owner ++ "/" ++ repo

/-- URL of the commit-list endpoint. -/
def commitsUrl (owner repo : String) : String := apiRepoUrl owner repo ++ "/commits"

/-- URL of the language-breakdown endpoint. -/
def langUrl (owner repo : String) : String := apiRepoUrl owner repo ++ "/languages"

/-- URL of the raw README at the `main` branch. -/
def readmeMainUrl (owner repo : String) : String :=
  "https://raw.githubusercontent.com/" ++ owner ++ "/" ++ repo ++ "/main/README.md"

/-- URL of the raw README at the `master` branch. -/
def readmeMasterUrl (owner repo : String) : String :=
  "https://raw.githubusercontent.com/" ++ owner ++ "/" ++ repo ++ "/master/README.md"

/-- URL of the root contents-listing endpoint. -/
def contentsUrl (owner repo : String) : String := apiRepoUrl owner repo ++ "/contents"

/-- The README requests a scan issues: the `master` URL is fetched only when
the `main` fetch raises (not when it merely returns a non-200 status). -/
def readmeRequests (owner repo : String) (env : Env) : List String :=
  match env.readmeMain with
  | .exc => [readmeMainUrl owner repo, readmeMasterUrl owner repo]
  | .ok _ _ => [readmeMainUrl owner repo]

/-- `self.commits` after `fetch_commits`: the parsed list on a 200 response,
otherwise the initial empty list (non-200 and exceptions are swallowed). -/
def theCommits (env : Env) : List CommitObj :=
  match env.commitsResp with
  | .exc => []
  | .ok status l => if status = 200 then l else []

/-- Success branch of `SolanaRepoScanner.analyze`: run the six checks in
source order on the fetched data, clamp the score, and build the result
dictionary; paired with the list of issued request URLs. -/
def successResult (owner repo : String) (env : Env) (d : RepoData) (now : Int) :
    List (String × JVal) × List String :=
  let commits := theCommits env
  let st := check_commit_patterns commits now ⟨100, []⟩
  let st := check_community_engagement d st
  let st := check_code_to_commit_ratio env.langResp commits st
  let st := check_description_and_readme env d st
  let st := check_solana_specific_indicators env.contentsResp d repo st
  let st := check_license_and_docs d st
  let score := max 0 (min 100 st.score)
  let rl := (get_risk_level score).1
  ([("score", JVal.jnum score),
    ("risk_level", JVal.jstr rl),
    ("red_flags", JVal.jarr (st.red_flags.map JVal.jstr)),
    ("metadata", JVal.jobj
      [("stars", JVal.jnum d.stargazers_count),
       ("forks", JVal.jnum d.forks_count),
       ("commits", JVal.jnum commits.length),
       ("language", JVal.jstr (d.language.getD "Unknown"))])],
   [apiRepoUrl owner repo, commitsUrl owner repo, langUrl owner repo] ++
     readmeRequests owner repo env ++ [contentsUrl owner repo])

/-- `SolanaRepoScanner.analyze`: the returned dictionary together with the
list of request URLs the scan issues. -/
def analyze (url : String) (env : Env) (now : Int) :
    List (String × JVal) × List String :=
  match parse_url url with
  | none => ([("error", JVal.jstr "Invalid URL")], [])
  | some (owner, repo) =>
    match env.repoResp with
    | .exc => ([("error", JVal.jstr "Failed to fetch repository data")], [apiRepoUrl owner repo])
    | .ok status d =>
      if status ≠ 200 then
        ([("error", JVal.jstr "Failed to fetch repository data")], [apiRepoUrl owner repo])
      else successResult owner repo env d now

/-! ## Check contributions: each check appends a batch of (delta, flag) pairs -/

/-- Identifiers for the six checks, in source execution order. -/
inductive CheckId where
  | commitPatterns
  | communityEngagement
  | codeCommit
  | descReadme
  | solanaIndicators
  | licenseDocs
deriving DecidableEq

/-- The six checks in the order `analyze` runs them. -/
def allChecks : List CheckId :=
  [.commitPatterns, .communityEngagement, .codeCommit, .descReadme, .solanaIndicators, .licenseDocs]

/-- The fetched data read by the checks of one scan. -/
structure FetchCtx where
  env : Env
  repoData : RepoData
  commits : List CommitObj
  owner : String
  repo : String
  now : Int

/-- The context `analyze` hands to the checks on its success path. -/
def mkCtx (owner repo : String) (env : Env) (d : RepoData) (now : Int) : FetchCtx :=
  ⟨env, d, theCommits env, owner, repo, now⟩

/-- Dispatch one check over the fetched data. -/
def runCheck (ctx : FetchCtx) : CheckId → ScanState → ScanState
  | .commitPatterns => check_commit_patterns ctx.commits ctx.now
  | .communityEngagement => check_community_engagement ctx.repoData
  | .codeCommit => check_code_to_commit_ratio ctx.env.langResp ctx.commits
  | .descReadme => check_description_and_readme ctx.env ctx.repoData
  | .solanaIndicators => check_solana_specific_indicators ctx.env.contentsResp ctx.repoData ctx.repo
  | .licenseDocs => check_license_and_docs ctx.repoData

/-- Run a list of checks left to right. -/
def runChecks (ctx : FetchCtx) (l : List CheckId) (st : ScanState) : ScanState :=
  l.foldl (fun s id => runCheck ctx id s) st

/-- Apply a batch of (delta, flag) contributions to the state. -/
def applyContrib (l : List (Int × String)) (st : ScanState) : ScanState :=
  ⟨st.score + (l.map Prod.fst).sum, st.red_flags ++ l.map Prod.snd⟩

/-- Contribution of the commit-volume block. -/
def commitCountContrib (commits : List CommitObj) : List (Int × String) :=
  let n := commits.length
  if n < 3 then [(-35, s!"Only {n} commits - extremely suspicious")]
  else if n < 10 then [(-25, s!"Only {n} commits - suspiciously low for production code")]
  else if n < 25 then [(-15, s!"{n} commits - below average for established project")]
  else []

/-- Contribution of the commit-recency block. -/
def commitRecencyContrib (commits : List CommitObj) (now : Int) : List (Int × String) :=
  match commits with
  | [] => []
  | c :: _ =>
    match c.date.bind parseDate with
    | none => []
    | some t =>
      let days : Int := (now - t).fdiv 86400
      if days > 365 then [(-30, s!"Abandoned: Last commit was {days} days ago")]
      else if days > 180 then [(-20, s!"Stale: Last commit was {days} days ago")]
      else if days > 90 then [(-10, s!"Inactive: Last commit was {days} days ago")]
      else []

/-- Contribution of the single-contributor block. -/
def commitAuthorContrib (commits : List CommitObj) : List (Int × String) :=
  if commits.length ≥ 5 then
    if (commits.take 50).all (fun c => c.email.isSome) then
      let authors := ((commits.take 50).filterMap (fun c => c.email)).dedup
      if authors.length = 1 ∧ commits.length > 20 then
        [(-15, "Single contributor with many commits - may indicate copied project")]
      else []
    else []
  else []

/-- Contribution of `check_commit_patterns`. -/
def commitContrib (commits : List CommitObj) (now : Int) : List (Int × String) :=
  commitCountContrib commits ++ (commitRecencyContrib commits now ++ commitAuthorContrib commits)

/-- Contribution of `check_community_engagement`. -/
def communityContrib (d : RepoData) : List (Int × String) :=
  (if d.stargazers_count = 0 then [(-20, "0 stars - no community validation")]
   else if d.stargazers_count < 5 then
     [(-10, s!"Only {d.stargazers_count} stars - minimal community interest")]
   else []) ++
  ((if d.forks_count = 0 then [(-15, "0 forks - no community contribution or trust")] else []) ++
   (if d.fork then [(-10, "Repository is a fork - may not be original work")] else []))

/-- Contribution of `check_code_to_commit_ratio`. -/
def ratioContrib (langResp : Resp (List (String × Nat)))
    (commits : List CommitObj) : List (Int × String) :=
  match langResp with
  | .exc => []
  | .ok status langs =>
    if status = 200 then
      let total := (langs.map Prod.snd).sum
      let n := commits.length
      if total > 0 ∧ n > 0 then
        if total > 50000 * n then [(-40, ratioFlagExtreme total n)]
        else if total > 10000 * n then [(-25, ratioFlagHigh total n)]
        else if total > 5000 * n then [(-15, ratioFlagElevated total n)]
        else []
      else []
    else []

/-- Contribution of the marketing-language block. -/
def marketingContrib (desc : String) : List (Int × String) :=
  let c := marketing_terms.countP (fun t => strContains desc t)
  if c ≥ 2 then [(-15, s!"Heavy marketing language in description ({c} buzzwords)")]
  else if c = 1 then [(-8, "Marketing buzzwords detected in description")]
  else []

/-- Contribution of the README block. -/
def readmeContrib (env : Env) : List (Int × String) :=
  match env.readmeMain with
  | .ok status text =>
    if status = 200 then
      let readme := toLowerStr text
      (let c := funding_keywords.countP (fun t => strContains readme t)
       if c ≥ 3 then [(-20, s!"Heavy funding-seeking language in README ({c} instances)")]
       else if c ≥ 2 then [(-12, "Funding-seeking language detected in README")]
       else []) ++
      ((if token_keywords.any (fun t => strContains readme t) then
          [(-25, "Token sale/ICO language detected - potential scam")]
        else []) ++
       (if readme.length < 200 then
          [(-10, "Very short README - insufficient documentation")]
        else []))
    else []
  | .exc =>
    match env.readmeMaster with
    | .ok status _ =>
      if status ≠ 200 then [(-15, "No README.md found - poor documentation")] else []
    | .exc => []

/-- Contribution of `check_description_and_readme`. -/
def descReadmeContrib (env : Env) (d : RepoData) : List (Int × String) :=
  marketingContrib (descString d.description) ++ readmeContrib env

/-- Contribution of `check_solana_specific_indicators`. -/
def solanaContrib (contentsResp : Resp (List ContentItem))
    (d : RepoData) (repo : String) : List (Int × String) :=
  match contentsResp with
  | .exc => []
  | .ok status items =>
    if status = 200 then
      let files := (items.filter (fun it => it.itemType == "file")).map (fun it => it.name)
      let has_anchor := files.contains "Anchor.toml"
      let has_cargo := files.contains "Cargo.toml"
      let has_package_json := files.contains "package.json"
      let description := descString d.description
      if strContains description "solana" || strContains (toLowerStr repo) "solana" then
        if !(has_anchor || has_cargo || has_package_json) then
          [(-20, "Claims to be Solana project but missing Anchor/Cargo/package.json")]
        else []
      else []
    else []

/-- Contribution of `check_license_and_docs`. -/
def licenseContrib (d : RepoData) : List (Int × String) :=
  if d.license.isNone then [(-10, "No license - unprofessional or incomplete project")] else []

/-- Contribution of a check, by identifier. -/
def contrib (ctx : FetchCtx) : CheckId → List (Int × String)
  | .commitPatterns => commitContrib ctx.commits ctx.now
  | .communityEngagement => communityContrib ctx.repoData
  | .codeCommit => ratioContrib ctx.env.langResp ctx.commits
  | .descReadme => descReadmeContrib ctx.env ctx.repoData
  | .solanaIndicators => solanaContrib ctx.env.contentsResp ctx.repoData ctx.repo
  | .licenseDocs => licenseContrib ctx.repoData

/-- Score delta contributed by one check. -/
def checkDelta (ctx : FetchCtx) (id : CheckId) : Int := ((contrib ctx id).map Prod.fst).sum

/-- Flags contributed by one check. -/
def checkFlags (ctx : FetchCtx) (id : CheckId) : List String := (contrib ctx id).map Prod.snd

/-- Total delta of a full pipeline run. -/
def totalDelta (ctx : FetchCtx) : Int := (allChecks.map (checkDelta ctx)).sum

/-! ## Structural lemmas about the checks -/

theorem applyContrib_nil (st : ScanState) : applyContrib [] st = st := by
  simp [applyContrib]

theorem applyContrib_append (a b : List (Int × String)) (st : ScanState) :
    applyContrib (a ++ b) st = applyContrib b (applyContrib a st) := by
  simp [applyContrib, add_assoc]

theorem commitCountStep_eq (commits : List CommitObj) (st : ScanState) :
    commitCountStep commits st = applyContrib (commitCountContrib commits) st := by
  simp only [commitCountStep, commitCountContrib]
  split_ifs <;> simp [applyContrib, ScanState.mk.injEq] <;> omega

theorem commitRecencyStep_eq (commits : List CommitObj) (now : Int) (st : ScanState) :
    commitRecencyStep commits now st = applyContrib (commitRecencyContrib commits now) st := by
  simp only [commitRecencyStep, commitRecencyContrib]
  cases commits with
  | nil => simp [applyContrib]
  | cons c rest =>
    cases h : c.date.bind parseDate with
    | none => simp [h, applyContrib]
    | some t =>
      simp only [h]
      split_ifs <;> simp [applyContrib, ScanState.mk.injEq] <;> omega

theorem commitAuthorStep_eq (commits : List CommitObj) (st : ScanState) :
    commitAuthorStep commits st = applyContrib (commitAuthorContrib commits) st := by
  simp only [commitAuthorStep, commitAuthorContrib]
  split_ifs <;> simp [applyContrib, ScanState.mk.injEq] <;> omega

theorem check_commit_patterns_eq (commits : List CommitObj) (now : Int) (st : ScanState) :
    check_commit_patterns commits now st = applyContrib (commitContrib commits now) st := by
  unfold check_commit_patterns commitContrib
  rw [applyContrib_append, applyContrib_append, commitCountStep_eq, commitRecencyStep_eq,
    commitAuthorStep_eq]

theorem check_community_engagement_eq (d : RepoData) (st : ScanState) :
    check_community_engagement d st = applyContrib (communityContrib d) st := by
  simp only [check_community_engagement, communityContrib]
  rw [applyContrib_append, applyContrib_append]
  split_ifs <;> simp [applyContrib, ScanState.mk.injEq] <;> omega

theorem check_code_to_commit_ratio_eq (langResp : Resp (List (String × Nat)))
    (commits : List CommitObj) (st : ScanState) :
    check_code_to_commit_ratio langResp commits st =
      applyContrib (ratioContrib langResp commits) st := by
  simp only [check_code_to_commit_ratio, ratioContrib]
  cases langResp with
  | exc => simp [applyContrib]
  | ok status langs =>
    simp only
    split_ifs <;> simp [applyContrib, ScanState.mk.injEq] <;> omega

theorem marketingStep_eq (desc : String) (st : ScanState) :
    marketingStep desc st = applyContrib (marketingContrib desc) st := by
  simp only [marketingStep, marketingContrib]
  split_ifs <;> simp [applyContrib, ScanState.mk.injEq] <;> omega

theorem readmeStep_eq (env : Env) (st : ScanState) :
    readmeStep env st = applyContrib (readmeContrib env) st := by
  simp only [readmeStep, readmeContrib, fundingStep, tokenStep, lengthStep]
  cases hm : env.readmeMain with
  | exc =>
    cases hs : env.readmeMaster with
    | exc => simp [applyContrib]
    | ok status text =>
      simp only
      split_ifs <;> simp [applyContrib, ScanState.mk.injEq] <;> omega
  | ok status text =>
    simp only
    split_ifs <;> simp [applyContrib, ScanState.mk.injEq] <;> omega

theorem check_description_and_readme_eq (env : Env) (d : RepoData) (st : ScanState) :
    check_description_and_readme env d st = applyContrib (descReadmeContrib env d) st := by
  unfold check_description_and_readme descReadmeContrib
  rw [applyContrib_append, marketingStep_eq, readmeStep_eq]

theorem check_solana_specific_indicators_eq (contentsResp : Resp (List ContentItem))
    (d : RepoData) (repo : String) (st : ScanState) :
    check_solana_specific_indicators contentsResp d repo st =
      applyContrib (solanaContrib contentsResp d repo) st := by
  simp only [check_solana_specific_indicators, solanaContrib]
  cases contentsResp with
  | exc => simp [applyContrib]
  | ok status items =>
    simp only
    split_ifs <;> simp [applyContrib, ScanState.mk.injEq] <;> omega

theorem check_license_and_docs_eq (d : RepoData) (st : ScanState) :
    check_license_and_docs d st = applyContrib (licenseContrib d) st := by
  simp only [check_license_and_docs, licenseContrib]
  split_ifs <;> simp [applyContrib, ScanState.mk.injEq] <;> omega

theorem runCheck_eq (ctx : FetchCtx) (id : CheckId) (st : ScanState) :
    runCheck ctx id st = applyContrib (contrib ctx id) st := by
  cases id with
  | commitPatterns => exact check_commit_patterns_eq _ _ _
  | communityEngagement => exact check_community_engagement_eq _ _
  | codeCommit => exact check_code_to_commit_ratio_eq _ _ _
  | descReadme => exact check_description_and_readme_eq _ _ _
  | solanaIndicators => exact check_solana_specific_indicators_eq _ _ _ _
  | licenseDocs => exact check_license_and_docs_eq _ _

theorem runChecks_nil (ctx : FetchCtx) (st : ScanState) : runChecks ctx [] st = st := rfl

theorem runChecks_cons (ctx : FetchCtx) (id : CheckId) (l : List CheckId) (st : ScanState) :
    runChecks ctx (id :: l) st = runChecks ctx l (runCheck ctx id st) := rfl

theorem runChecks_score (ctx : FetchCtx) (l : List CheckId) (st : ScanState) :
    (runChecks ctx l st).score = st.score + (l.map (checkDelta ctx)).sum := by
  induction l generalizing st with
  | nil => simp [runChecks_nil]
  | cons id rest ih =>
    rw [runChecks_cons, ih, runCheck_eq]
    simp [applyContrib, checkDelta, add_assoc]

theorem runChecks_flags (ctx : FetchCtx) (l : List CheckId) (st : ScanState) :
    (runChecks ctx l st).red_flags = st.red_flags ++ (l.map (checkFlags ctx)).flatten := by
  induction l generalizing st with
  | nil => simp [runChecks_nil]
  | cons id rest ih =>
    rw [runChecks_cons, ih, runCheck_eq]
    simp [applyContrib, checkFlags]

theorem neg_singleton {x : Int} {s : String} (hx : x < 0) :
    ∀ p ∈ [(x, s)], p.1 < 0 := by
  intro p hp
  simp only [List.mem_singleton] at hp
  rw [hp]
  exact hx

theorem neg_nil : ∀ p ∈ ([] : List (Int × String)), p.1 < 0 := by simp

theorem neg_append {l₁ l₂ : List (Int × String)}
    (h₁ : ∀ p ∈ l₁, p.1 < 0) (h₂ : ∀ p ∈ l₂, p.1 < 0) :
    ∀ p ∈ l₁ ++ l₂, p.1 < 0 := by
  intro p hp
  rcases List.mem_append.1 hp with h | h
  exacts [h₁ p h, h₂ p h]

theorem commitCountContrib_neg (commits : List CommitObj) :
    ∀ p ∈ commitCountContrib commits, p.1 < 0 := by
  simp only [commitCountContrib]
  split_ifs <;> first | exact neg_singleton (by decide) | exact neg_nil

theorem commitRecencyContrib_neg (commits : List CommitObj) (now : Int) :
    ∀ p ∈ commitRecencyContrib commits now, p.1 < 0 := by
  simp only [commitRecencyContrib]
  cases commits with
  | nil => exact neg_nil
  | cons c rest =>
    cases h : c.date.bind parseDate with
    | none => simp [h]
    | some t =>
      simp only [h]
      split_ifs <;> first | exact neg_singleton (by decide) | exact neg_nil

theorem commitAuthorContrib_neg (commits : List CommitObj) :
    ∀ p ∈ commitAuthorContrib commits, p.1 < 0 := by
  simp only [commitAuthorContrib]
  split_ifs <;> first | exact neg_singleton (by decide) | exact neg_nil

theorem communityContrib_neg (d : RepoData) :
    ∀ p ∈ communityContrib d, p.1 < 0 := by
  simp only [communityContrib]
  refine neg_append ?_ (neg_append ?_ ?_) <;>
    split_ifs <;> first | exact neg_singleton (by decide) | exact neg_nil

theorem ratioContrib_neg (langResp : Resp (List (String × Nat))) (commits : List CommitObj) :
    ∀ p ∈ ratioContrib langResp commits, p.1 < 0 := by
  simp only [ratioContrib]
  cases langResp with
  | exc => exact neg_nil
  | ok status langs =>
    dsimp only
    split_ifs <;> first | exact neg_singleton (by decide) | exact neg_nil

theorem marketingContrib_neg (desc : String) :
    ∀ p ∈ marketingContrib desc, p.1 < 0 := by
  simp only [marketingContrib]
  split_ifs <;> first | exact neg_singleton (by decide) | exact neg_nil

theorem readmeContrib_neg (env : Env) :
    ∀ p ∈ readmeContrib env, p.1 < 0 := by
  simp only [readmeContrib]
  cases env.readmeMain with
  | exc =>
    cases env.readmeMaster with
    | exc => exact neg_nil
    | ok status text =>
      dsimp only
      split_ifs <;> first | exact neg_singleton (by decide) | exact neg_nil
  | ok status text =>
    dsimp only
    split_ifs <;>
      first
        | exact neg_nil
        | (refine neg_append ?_ (neg_append ?_ ?_) <;>
            first | exact neg_singleton (by decide) | exact neg_nil)

theorem solanaContrib_neg (contentsResp : Resp (List ContentItem)) (d : RepoData)
    (repo : String) : ∀ p ∈ solanaContrib contentsResp d repo, p.1 < 0 := by
  simp only [solanaContrib]
  cases contentsResp with
  | exc => exact neg_nil
  | ok status items =>
    dsimp only
    split_ifs <;> first | exact neg_singleton (by decide) | exact neg_nil

theorem licenseContrib_neg (d : RepoData) :
    ∀ p ∈ licenseContrib d, p.1 < 0 := by
  simp only [licenseContrib]
  split_ifs <;> first | exact neg_singleton (by decide) | exact neg_nil

theorem contrib_neg (ctx : FetchCtx) (id : CheckId) :
    ∀ p ∈ contrib ctx id, p.1 < 0 := by
  cases id with
  | commitPatterns =>
    exact neg_append (commitCountContrib_neg _)
      (neg_append (commitRecencyContrib_neg _ _) (commitAuthorContrib_neg _))
  | communityEngagement => exact communityContrib_neg _
  | codeCommit => exact ratioContrib_neg _ _
  | descReadme => exact neg_append (marketingContrib_neg _) (readmeContrib_neg _)
  | solanaIndicators => exact solanaContrib_neg _ _ _
  | licenseDocs => exact licenseContrib_neg _

/-! ## The success path of `analyze` as a `runChecks` pipeline -/

theorem analyze_success (url : String) (env : Env) (now : Int) (owner repo : String)
    (d : RepoData) (hp : parse_url url = some (owner, repo))
    (hr : env.repoResp = Resp.ok 200 d) :
    analyze url env now = successResult owner repo env d now := by
  unfold analyze
  rw [hp, hr]
  simp

theorem successState_eq (owner repo : String) (env : Env) (d : RepoData) (now : Int) :
    check_license_and_docs d
      (check_solana_specific_indicators env.contentsResp d repo
        (check_description_and_readme env d
          (check_code_to_commit_ratio env.langResp (theCommits env)
            (check_community_engagement d
              (check_commit_patterns (theCommits env) now ⟨100, []⟩))))) =
    runChecks (mkCtx owner repo env d now) allChecks ⟨100, []⟩ := rfl

theorem successResult_spec (owner repo : String) (env : Env) (d : RepoData) (now : Int) :
    (successResult owner repo env d now).1 =
      [("score", JVal.jnum (max 0 (min 100 (100 + totalDelta (mkCtx owner repo env d now))))),
       ("risk_level", JVal.jstr
         ((get_risk_level (max 0 (min 100 (100 + totalDelta (mkCtx owner repo env d now))))).1)),
       ("red_flags", JVal.jarr
         (((allChecks.map (checkFlags (mkCtx owner repo env d now))).flatten).map JVal.jstr)),
       ("metadata", JVal.jobj
         [("stars", JVal.jnum d.stargazers_count),
          ("forks", JVal.jnum d.forks_count),
          ("commits", JVal.jnum (theCommits env).length),
          ("language", JVal.jstr (d.language.getD "Unknown"))])] := by
  simp only [successResult]
  rw [successState_eq owner repo env d now]
  have hs := runChecks_score (mkCtx owner repo env d now) allChecks ⟨100, []⟩
  have hf := runChecks_flags (mkCtx owner repo env d now) allChecks ⟨100, []⟩
  rw [hs, hf]
  simp [totalDelta]

/-! ## Sums of negative contributions -/

theorem sum_nonpos_of_neg (l : List Int) (h : ∀ x ∈ l, x < 0) : l.sum ≤ 0 := by
  induction l with
  | nil => simp
  | cons x rest ih =>
    simp only [List.sum_cons]
    have hx := h x (List.mem_cons_self x rest)
    have hr := ih (fun y hy => h y (List.mem_cons_of_mem x hy))
    omega

theorem sum_zero_iff_nil (l : List Int) (h : ∀ x ∈ l, x < 0) : l.sum = 0 ↔ l = [] := by
  induction l with
  | nil => simp
  | cons x rest ih =>
    simp only [List.sum_cons]
    have hx := h x (List.mem_cons_self x rest)
    have hr := sum_nonpos_of_neg rest (fun y hy => h y (List.mem_cons_of_mem x hy))
    constructor
    · intro hd
      omega
    · intro hd
      simp at hd

theorem checkDelta_nonpos (ctx : FetchCtx) (id : CheckId) : checkDelta ctx id ≤ 0 := by
  refine sum_nonpos_of_neg _ ?_
  intro x hx
  rcases List.mem_map.1 hx with ⟨p, hp, rfl⟩
  exact contrib_neg ctx id p hp

theorem checkDelta_zero_iff (ctx : FetchCtx) (id : CheckId) :
    checkDelta ctx id = 0 ↔ contrib ctx id = [] := by
  unfold checkDelta
  rw [sum_zero_iff_nil]
  · simp
  · intro x hx
    rcases List.mem_map.1 hx with ⟨p, hp, rfl⟩
    exact contrib_neg ctx id p hp

theorem sum_nonpos_of_nonpos (l : List Int) (h : ∀ x ∈ l, x ≤ 0) : l.sum ≤ 0 := by
  induction l with
  | nil => simp
  | cons x rest ih =>
    simp only [List.sum_cons]
    have hx := h x (List.mem_cons_self x rest)
    have hr := ih (fun y hy => h y (List.mem_cons_of_mem x hy))
    omega

theorem sum_nonpos_zero_iff (l : List Int) (h : ∀ x ∈ l, x ≤ 0) :
    l.sum = 0 ↔ ∀ x ∈ l, x = 0 := by
  induction l with
  | nil => simp
  | cons x rest ih =>
    simp only [List.sum_cons]
    have hx := h x (List.mem_cons_self x rest)
    have hr := sum_nonpos_of_nonpos rest (fun y hy => h y (List.mem_cons_of_mem x hy))
    have ihr := ih (fun y hy => h y (List.mem_cons_of_mem x hy))
    constructor
    · intro hd
      have hx0 : x = 0 := by omega
      have hs0 : rest.sum = 0 := by omega
      intro y hy
      rcases List.mem_cons.1 hy with rfl | hy
      · exact hx0
      · exact (ihr.1 hs0) y hy
    · intro hall
      have hx0 := hall x (List.mem_cons_self x rest)
      have hs0 : rest.sum = 0 := ihr.2 (fun y hy => hall y (List.mem_cons_of_mem x hy))
      omega

theorem totalDelta_nonpos (ctx : FetchCtx) : totalDelta ctx ≤ 0 := by
  refine sum_nonpos_of_nonpos _ ?_
  intro x hx
  rcases List.mem_map.1 hx with ⟨id, _, rfl⟩
  exact checkDelta_nonpos ctx id

/-! ## Concrete fixtures used by witnesses and counterexamples -/

/-- A benign repository metadata record. -/
def dShared : RepoData := ⟨10, 3, 5, 1, false, some "MIT", none, some "Rust"⟩

/-- A 250-character README with no funding or token keywords. -/
def longReadme : String := String.mk (List.replicate 250 'a')

/-- A benign environment: all fetches succeed, commit list empty. -/
def envShared : Env :=
  ⟨.ok 200 dShared, .ok 200 [], .ok 200 [], .ok 200 longReadme, .ok 200 longReadme, .ok 200 []⟩

/-- The context built by a scan of `https://github.com/a/b` over `envShared`. -/
def ctxShared : FetchCtx := mkCtx "a" "b" envShared dShared 0

/-! ## Claims -/

/-- C1: for every scan reaching the check suite, the score in the result
equals 100 plus the sum of the applied deltas, clamped to [0, 100], and in
particular lies in [0, 100]. -/
theorem c1_score_clamped (url : String) (env : Env) (now : Int) (owner repo : String)
    (d : RepoData) (hp : parse_url url = some (owner, repo))
    (hr : env.repoResp = Resp.ok 200 d) :
    ∃ v : Int,
      List.lookup "score" (analyze url env now).1 = some (JVal.jnum v) ∧
      v = max 0 (min 100 (100 + totalDelta (mkCtx owner repo env d now))) ∧
      0 ≤ v ∧ v ≤ 100 := by
  rw [analyze_success url env now owner repo d hp hr, successResult_spec]
  refine ⟨_, ?_, rfl, le_max_left _ _, max_le (by norm_num) (min_le_left _ _)⟩
  simp [List.lookup]

/-- Witness for C1 at a concrete URL and environment. -/
theorem c1_score_clamped_witness :
    ∃ v : Int,
      List.lookup "score" (analyze "https://github.com/a/b" envShared 0).1 =
        some (JVal.jnum v) ∧
      v = max 0 (min 100 (100 + totalDelta (mkCtx "a" "b" envShared dShared 0))) ∧
      0 ≤ v ∧ v ≤ 100 :=
  c1_score_clamped "https://github.com/a/b" envShared 0 "a" "b" dShared (by decide) rfl

/-- C2: the risk tier is a total function of the clamped score with
lower-inclusive boundaries; 80, 60, 40, 20 map to LOW, MEDIUM-LOW,
MEDIUM-HIGH and HIGH RISK respectively. -/
theorem c2_risk_tiers (s : Int) (h0 : 0 ≤ s) (h1 : s ≤ 100) :
    (80 ≤ s → (get_risk_level s).1 = "LOW RISK") ∧
    (60 ≤ s → s < 80 → (get_risk_level s).1 = "MEDIUM-LOW RISK") ∧
    (40 ≤ s → s < 60 → (get_risk_level s).1 = "MEDIUM-HIGH RISK") ∧
    (20 ≤ s → s < 40 → (get_risk_level s).1 = "HIGH RISK") ∧
    (s < 20 → (get_risk_level s).1 = "CRITICAL RISK") ∧
    (get_risk_level 80).1 = "LOW RISK" ∧
    (get_risk_level 60).1 = "MEDIUM-LOW RISK" ∧
    (get_risk_level 40).1 = "MEDIUM-HIGH RISK" ∧
    (get_risk_level 20).1 = "HIGH RISK" := by
  refine ⟨?_, ?_, ?_, ?_, ?_, by decide, by decide, by decide, by decide⟩ <;>
    (intros; unfold get_risk_level; split_ifs <;> first | rfl | (exfalso; omega))

/-- Witness for C2 at the boundary score 80. -/
theorem c2_risk_tiers_witness :
    0 ≤ (80 : Int) ∧ (80 : Int) ≤ 100 ∧ (get_risk_level 80).1 = "LOW RISK" :=
  ⟨by decide, by decide, (c2_risk_tiers 80 (by decide) (by decide)).1 (by decide)⟩

/-- C7: over fixed fetched data the final score is invariant under any
permutation of the checks, while the flag order equals execution order. -/
theorem c7_order_invariance (ctx : FetchCtx) (l l2 : List CheckId) (st : ScanState)
    (h : l.Perm l2) :
    (runChecks ctx l st).score = (runChecks ctx l2 st).score ∧
    (runChecks ctx l st).red_flags = st.red_flags ++ (l.map (checkFlags ctx)).flatten := by
  constructor
  · rw [runChecks_score, runChecks_score, (h.map (checkDelta ctx)).sum_eq]
  · exact runChecks_flags ctx l st

/-- Witness for C7: the six checks run in reverse order give the same score. -/
theorem c7_order_invariance_witness :
    allChecks.reverse.Perm allChecks ∧
    (runChecks ctxShared allChecks.reverse ⟨100, []⟩).score =
      (runChecks ctxShared allChecks ⟨100, []⟩).score ∧
    (runChecks ctxShared allChecks.reverse ⟨100, []⟩).red_flags =
      (⟨100, []⟩ : ScanState).red_flags ++
        (allChecks.reverse.map (checkFlags ctxShared)).flatten :=
  ⟨by decide,
   (c7_order_invariance ctxShared allChecks.reverse allChecks ⟨100, []⟩ (by decide)).1,
   (c7_order_invariance ctxShared allChecks.reverse allChecks ⟨100, []⟩ (by decide)).2⟩

/-- C8: running the commit-pattern check twice doubles the score decrease and
repeats every triggered flag; the check is not idempotent. -/
theorem c8_double_run :
    (∀ (commits : List CommitObj) (now : Int) (st : ScanState),
      (check_commit_patterns commits now (check_commit_patterns commits now st)).score =
        st.score + 2 * ((commitContrib commits now).map Prod.fst).sum ∧
      (check_commit_patterns commits now (check_commit_patterns commits now st)).red_flags =
        st.red_flags ++ (commitContrib commits now).map Prod.snd ++
          (commitContrib commits now).map Prod.snd) ∧
    ∃ (commits : List CommitObj) (now : Int) (st : ScanState),
      check_commit_patterns commits now (check_commit_patterns commits now st) ≠
        check_commit_patterns commits now st := by
  constructor
  · intro commits now st
    rw [check_commit_patterns_eq, check_commit_patterns_eq]
    constructor
    · simp only [applyContrib]
      omega
    · simp [applyContrib, List.append_assoc]
  · exact ⟨[], 0, ⟨100, []⟩, by decide⟩

/-- C10: every check is a batch of (delta, flag) pairs with strictly negative
deltas; the pre-clamp score never exceeds its initial value, and after the
six checks the score is 100 exactly when the flag list is empty. -/
theorem c10_negative_deltas (ctx : FetchCtx) :
    (∀ id st, runCheck ctx id st = applyContrib (contrib ctx id) st) ∧
    (∀ id p, p ∈ contrib ctx id → p.1 < 0) ∧
    (∀ l st, (runChecks ctx l st).score ≤ st.score) ∧
    (runChecks ctx allChecks ⟨100, []⟩).score ≤ 100 ∧
    ((runChecks ctx allChecks ⟨100, []⟩).score = 100 ↔
      (runChecks ctx allChecks ⟨100, []⟩).red_flags = []) := by
  have hdeltas : ∀ l : List CheckId, ∀ x ∈ l.map (checkDelta ctx), x ≤ 0 := by
    intro l x hx
    rcases List.mem_map.1 hx with ⟨id, _, rfl⟩
    exact checkDelta_nonpos ctx id
  have hmono : ∀ (l : List CheckId) (st : ScanState), (runChecks ctx l st).score ≤ st.score := by
    intro l st
    rw [runChecks_score]
    have := sum_nonpos_of_nonpos _ (hdeltas l)
    omega
  refine ⟨fun id st => runCheck_eq ctx id st, fun id p hp => contrib_neg ctx id p hp,
    hmono, hmono allChecks ⟨100, []⟩, ?_⟩
  rw [runChecks_score, runChecks_flags]
  simp only [List.nil_append]
  constructor
  · intro hscore
    have hz : (allChecks.map (checkDelta ctx)).sum = 0 := by omega
    have hall := (sum_nonpos_zero_iff _ (hdeltas allChecks)).1 hz
    rw [List.flatten_eq_nil_iff]
    intro fl hfl
    rcases List.mem_map.1 hfl with ⟨id, hid, rfl⟩
    have hd : checkDelta ctx id = 0 :=
      hall (checkDelta ctx id) (List.mem_map_of_mem _ hid)
    have hc : contrib ctx id = [] := (checkDelta_zero_iff ctx id).1 hd
    simp [checkFlags, hc]
  · intro hflags
    have hall : ∀ x ∈ allChecks.map (checkDelta ctx), x = 0 := by
      intro x hx
      rcases List.mem_map.1 hx with ⟨id, hid, rfl⟩
      have hfl : checkFlags ctx id = [] := by
        rw [List.flatten_eq_nil_iff] at hflags
        exact hflags _ (List.mem_map_of_mem _ hid)
      have hc : contrib ctx id = [] := by
        have := congrArg List.length hfl
        simp [checkFlags] at this
        exact this
      rw [checkDelta_zero_iff]
      exact hc
    have := (sum_nonpos_zero_iff _ (hdeltas allChecks)).2 hall
    omega

/-- Witness for C10: the negativity hypothesis discharged on the concrete
commit-count contribution of the shared context. -/
theorem c10_negative_deltas_witness :
    (((-35 : Int), "Only 0 commits - extremely suspicious") ∈
      contrib ctxShared CheckId.commitPatterns) ∧
    (((-35 : Int), "Only 0 commits - extremely suspicious") : Int × String).1 < 0 :=
  ⟨by decide,
   (c10_negative_deltas ctxShared).2.1 CheckId.commitPatterns
     ((-35 : Int), "Only 0 commits - extremely suspicious") (by decide)⟩

/-- C9: the scan returns exactly one of two mutually exclusive shapes: an
error-only dictionary, or a success dictionary with the four result keys and
no error key; a malformed URL yields the Invalid URL error and a failed
metadata fetch yields the failed-fetch error. -/
theorem c9_result_shapes (url : String) (env : Env) (now : Int) :
    ((∃ m, (analyze url env now).1 = [("error", JVal.jstr m)]) ∨
      ((analyze url env now).1.map Prod.fst = ["score", "risk_level", "red_flags", "metadata"] ∧
        ∀ v, ("error", v) ∉ (analyze url env now).1)) ∧
    (parse_url url = none → analyze url env now = ([("error", JVal.jstr "Invalid URL")], [])) ∧
    (∀ owner repo, parse_url url = some (owner, repo) → env.repoResp = Resp.exc →
      (analyze url env now).1 = [("error", JVal.jstr "Failed to fetch repository data")]) ∧
    (∀ owner repo status d, parse_url url = some (owner, repo) →
      env.repoResp = Resp.ok status d → status ≠ 200 →
      (analyze url env now).1 = [("error", JVal.jstr "Failed to fetch repository data")]) := by
  refine ⟨?_, ?_, ?_, ?_⟩
  · rcases hp : parse_url url with _ | ⟨owner, repo⟩
    · exact Or.inl ⟨"Invalid URL", by simp [analyze, hp]⟩
    · rcases hr : env.repoResp with _ | ⟨status, d⟩
      · exact Or.inl ⟨"Failed to fetch repository data", by simp [analyze, hp, hr]⟩
      · by_cases hs : status = 200
        · subst hs
          right
          rw [analyze_success url env now owner repo d hp hr, successResult_spec]
          constructor
          · rfl
          · intro v hv
            simp at hv
        · exact Or.inl ⟨"Failed to fetch repository data", by simp [analyze, hp, hr, hs]⟩
  · intro hp
    simp [analyze, hp]
  · intro owner repo hp hr
    simp [analyze, hp, hr]
  · intro owner repo status d hp hr hs
    simp [analyze, hp, hr, hs]

/-- Witness for C9: both fatal paths on concrete inputs. -/
theorem c9_result_shapes_witness :
    analyze "not-a-url" envShared 0 = ([("error", JVal.jstr "Invalid URL")], []) ∧
    (analyze "https://github.com/a/b" ⟨Resp.exc, Resp.exc, Resp.exc, Resp.exc, Resp.exc,
        Resp.exc⟩ 0).1 = [("error", JVal.jstr "Failed to fetch repository data")] :=
  ⟨(c9_result_shapes "not-a-url" envShared 0).2.1 (by decide),
   (c9_result_shapes "https://github.com/a/b"
      ⟨Resp.exc, Resp.exc, Resp.exc, Resp.exc, Resp.exc, Resp.exc⟩ 0).2.2.1
      "a" "b" (by decide) rfl⟩

/-- Environment for C3: all metadata fine, but the `main` README fetch
returns HTTP 404 without raising. -/
def envC3 : Env :=
  ⟨.ok 200 dShared, .ok 200 [], .exc, .ok 404 "", .ok 404 "", .exc⟩

/-- C3: when the `main` README fetch returns a non-success status (here 404)
without raising, the code never attempts the `master` branch, appends no
missing-README flag, and applies no delta — contradicting both the fallback
contract of the spec and the comment in the source itself, `Try master
branch if main does not exist`. -/
theorem c3_main_404_skips_master :
    readmeStep envC3 ⟨100, []⟩ = ⟨100, []⟩ ∧
    readmeRequests "u" "demo" envC3 = [readmeMainUrl "u" "demo"] ∧
    readmeMasterUrl "u" "demo" ∉ (analyze "https://github.com/u/demo" envC3 0).2 := by
  refine ⟨rfl, rfl, ?_⟩
  decide

/-- Environment for the C4 counterexample: the commit fetch raises, every other
fetch succeeds benignly. -/
def envC4 : Env :=
  ⟨.ok 200 dShared, .exc, .ok 200 [], .ok 200 longReadme, .ok 200 longReadme, .ok 200 []⟩

set_option maxRecDepth 100000 in
/-- Counterexample to C4: with the commit fetch failed (empty commit list)
the commit-pattern check still appends a commit flag and applies −35; the
scan of `envC4` reports exactly that flag and score 65. -/
theorem c4_commit_flag_on_failed_fetch :
    theCommits envC4 = [] ∧
    List.lookup "red_flags" (analyze "https://github.com/u/demo" envC4 0).1 =
      some (JVal.jarr [JVal.jstr "Only 0 commits - extremely suspicious"]) ∧
    List.lookup "score" (analyze "https://github.com/u/demo" envC4 0).1 =
      some (JVal.jnum 65) := by
  refine ⟨rfl, ?_, ?_⟩ <;> rfl

/-- An environment in which every fetch raises. -/
def envExc : Env := ⟨.exc, .exc, .exc, .exc, .exc, .exc⟩

/-- C4 as amended: an empty commit list (the result of a failed commit fetch)
fires the 0-commit branch with the extremely-suspicious flag and −35 while
the recency and single-contributor branches stay silent; the language,
contents and README checks append nothing when their own fetches fail (the
missing-README flag arising only from the raise-then-404 path). -/
theorem c4_failed_fetch_behaviour (now : Int) (st : ScanState) (commits : List CommitObj)
    (langs : List (String × Nat)) (status : Nat) (env : Env) (d : RepoData) :
    check_commit_patterns [] now st =
      ⟨st.score - 35, st.red_flags ++ ["Only 0 commits - extremely suspicious"]⟩ ∧
    check_code_to_commit_ratio Resp.exc commits st = st ∧
    (status ≠ 200 → check_code_to_commit_ratio (Resp.ok status langs) commits st = st) ∧
    (∀ repo, check_solana_specific_indicators Resp.exc d repo st = st) ∧
    (env.readmeMain = Resp.exc → env.readmeMaster = Resp.exc → readmeStep env st = st) := by
  refine ⟨rfl, rfl, ?_, fun repo => rfl, ?_⟩
  · intro hs
    simp only [check_code_to_commit_ratio]
    rw [if_neg hs]
  · intro h1 h2
    simp [readmeStep, h1, h2]

/-- Witness for the amended C4 statement at concrete inputs. -/
theorem c4_failed_fetch_behaviour_witness :
    check_commit_patterns [] 0 ⟨100, []⟩ =
      ⟨65, ["Only 0 commits - extremely suspicious"]⟩ ∧
    check_code_to_commit_ratio (Resp.ok 404 []) [] ⟨100, []⟩ = ⟨100, []⟩ ∧
    readmeStep envExc ⟨100, []⟩ = ⟨100, []⟩ := by
  have h := c4_failed_fetch_behaviour 0 ⟨100, []⟩ [] [] 404 envExc dShared
  refine ⟨?_, h.2.2.1 (by decide), h.2.2.2.2 rfl rfl⟩
  rw [h.1]
  decide

/-- Repository metadata for the C5 scenario: 0 stars, 0 forks, no license. -/
def dC5 : RepoData := ⟨0, 0, 0, 0, false, none, none, none⟩

/-- Two recent commits by different authors. -/
def commitsC5 : List CommitObj :=
  [⟨some "2026-09-30T12:00:00Z", some "a@x.com"⟩,
   ⟨some "2026-09-29T12:00:00Z", some "b@x.com"⟩]

/-- Environment for the C5 scenario: 2 commits, 0 stars, 0 forks, no
license, and a 404 (no raise) for the README on both branches. -/
def envC5 : Env :=
  ⟨.ok 200 dC5, .ok 200 commitsC5, .exc, .ok 404 "", .ok 404 "", .exc⟩

/-- The scan time for the C5 scenario, shortly after the last commit. -/
def nowC5 : Int := (parseDate "2026-10-01T00:00:00Z").getD 0

set_option maxRecDepth 100000 in
/-- C5 evaluated on the code: the scenario of the spec (2 commits, 0 stars,
0 forks, no license, no README on either branch) yields only four flags —
the missing-README flag is skipped because the 404 on `main` never reaches
the `master` fallback — so the score is 20 and the tier HIGH RISK, not the
claimed five flags, score 5 and CRITICAL RISK. -/
theorem c5_scenario_on_code :
    (analyze "https://github.com/u/demo" envC5 nowC5).1 =
      [("score", JVal.jnum 20),
       ("risk_level", JVal.jstr "HIGH RISK"),
       ("red_flags", JVal.jarr
         [JVal.jstr "Only 2 commits - extremely suspicious",
          JVal.jstr "0 stars - no community validation",
          JVal.jstr "0 forks - no community contribution or trust",
          JVal.jstr "No license - unprofessional or incomplete project"]),
       ("metadata", JVal.jobj
         [("stars", JVal.jnum 0), ("forks", JVal.jnum 0),
          ("commits", JVal.jnum 2), ("language", JVal.jstr "Unknown")])] := by
  rfl

/-! ## Characterisation of the URL search -/

theorem run_split (o t : List Char) (h : ∀ c ∈ o, notSlash c = true) :
    (o ++ '/' :: t).takeWhile notSlash = o ∧ (o ++ '/' :: t).dropWhile notSlash = '/' :: t := by
  induction o with
  | nil => constructor <;> simp [List.takeWhile_cons, List.dropWhile_cons, notSlash]
  | cons c cs ih =>
    have hc : notSlash c = true := h c (List.mem_cons_self _ _)
    have ih2 := ih (fun x hx => h x (List.mem_cons_of_mem _ hx))
    constructor <;>
      simp [List.takeWhile_cons, List.dropWhile_cons, hc, ih2.1, ih2.2]

theorem dropWhile_head_slash (l : List Char) (c : Char) (t : List Char)
    (h : l.dropWhile notSlash = c :: t) : c = '/' := by
  induction l with
  | nil => simp [List.dropWhile] at h
  | cons a rest ih =>
    rw [List.dropWhile_cons] at h
    split_ifs at h with ha
    · exact ih h
    · injection h with h1 h2
      subst h1
      simpa [notSlash] using ha

theorem takeWhile_front_ne_nil (n suf : List Char) (hn : n ≠ [])
    (hn2 : ∀ c ∈ n, c ≠ '/') : (n ++ suf).takeWhile notSlash ≠ [] := by
  cases n with
  | nil => exact absurd rfl hn
  | cons c cs =>
    have hc : notSlash c = true := by
      simpa [notSlash] using hn2 c (List.mem_cons_self _ _)
    simp [List.takeWhile_cons, hc]

theorem matchAt_some (l o n : List Char) (h : matchAt l = some (o, n)) :
    ∃ suf, l = ghPat ++ (o ++ ('/' :: (n ++ suf))) ∧ o ≠ [] ∧ n ≠ [] ∧
      (∀ c ∈ o, c ≠ '/') ∧ (∀ c ∈ n, c ≠ '/') := by
  unfold matchAt at h
  by_cases hpre : ghPat.isPrefixOf l = true
  · rw [if_pos hpre] at h
    obtain ⟨t, ht⟩ : ghPat <+: l := List.isPrefixOf_iff_prefix.1 hpre
    subst ht
    rw [List.drop_left] at h
    rcases hd : t.dropWhile notSlash with _ | ⟨c, r2⟩ <;> rw [hd] at h
    · exact Option.noConfusion (h : (none : Option (List Char × List Char)) = some (o, n))
    · have hc : c = '/' := dropWhile_head_slash t c r2 hd
      subst hc
      replace h : (if t.takeWhile notSlash = [] then none
          else if r2.takeWhile notSlash = [] then none
          else some (t.takeWhile notSlash, r2.takeWhile notSlash)) = some (o, n) := h
      by_cases ho : t.takeWhile notSlash = []
      · rw [if_pos ho] at h
        exact Option.noConfusion h
      · rw [if_neg ho] at h
        by_cases hn : r2.takeWhile notSlash = []
        · rw [if_pos hn] at h
          exact Option.noConfusion h
        · rw [if_neg hn, Option.some.injEq, Prod.mk.injEq] at h
          obtain ⟨rfl, rfl⟩ := h
          refine ⟨r2.dropWhile notSlash, ?_, ho, hn, ?_, ?_⟩
          · have h1 : t.takeWhile notSlash ++ t.dropWhile notSlash = t :=
              List.takeWhile_append_dropWhile notSlash t
            have h2 : r2.takeWhile notSlash ++ r2.dropWhile notSlash = r2 :=
              List.takeWhile_append_dropWhile notSlash r2
            rw [hd] at h1
            rw [h2, h1]
          · intro c hc
            have := List.mem_takeWhile_imp hc
            simpa [notSlash] using this
          · intro c hc
            have := List.mem_takeWhile_imp hc
            simpa [notSlash] using this
  · rw [if_neg hpre] at h
    exact Option.noConfusion h

theorem matchAt_parts (o n suf : List Char) (ho : o ≠ []) (hn : n ≠ [])
    (ho2 : ∀ c ∈ o, c ≠ '/') (hn2 : ∀ c ∈ n, c ≠ '/') :
    (matchAt (ghPat ++ (o ++ ('/' :: (n ++ suf))))).isSome := by
  have hpre : ghPat.isPrefixOf (ghPat ++ (o ++ ('/' :: (n ++ suf)))) = true :=
    List.isPrefixOf_iff_prefix.2 (List.prefix_append _ _)
  have hsplit := run_split o (n ++ suf)
    (fun c hc => by simpa [notSlash] using ho2 c hc)
  have heq : matchAt (ghPat ++ (o ++ ('/' :: (n ++ suf)))) =
      some (o, (n ++ suf).takeWhile notSlash) := by
    unfold matchAt
    rw [if_pos hpre, List.drop_left, hsplit.2, hsplit.1]
    show (if o = [] then none
        else if (n ++ suf).takeWhile notSlash = [] then none
        else some (o, (n ++ suf).takeWhile notSlash))
      = some (o, (n ++ suf).takeWhile notSlash)
    rw [if_neg ho, if_neg (takeWhile_front_ne_nil n suf hn hn2)]
  rw [heq]
  rfl

theorem searchGh_append_isSome (pre t : List Char) (h : (matchAt t).isSome) :
    (searchGh (pre ++ t)).isSome := by
  induction pre with
  | nil =>
    rw [List.nil_append]
    cases t with
    | nil => exact absurd h (by decide)
    | cons c cs =>
      rcases hm : matchAt (c :: cs) with _ | r
      · rw [hm] at h
        simp at h
      · simp [searchGh, hm]
  | cons p ps ih =>
    show (searchGh (p :: (ps ++ t))).isSome
    rcases hm : matchAt (p :: (ps ++ t)) with _ | r
    · simpa [searchGh, hm] using ih
    · simp [searchGh, hm]

theorem searchGh_some (l : List Char) (o n : List Char) (h : searchGh l = some (o, n)) :
    ∃ pre suf, l = pre ++ (ghPat ++ (o ++ ('/' :: (n ++ suf)))) ∧ o ≠ [] ∧ n ≠ [] ∧
      (∀ c ∈ o, c ≠ '/') ∧ (∀ c ∈ n, c ≠ '/') := by
  induction l with
  | nil => simp [searchGh] at h
  | cons c cs ih =>
    unfold searchGh at h
    rcases hm : matchAt (c :: cs) with _ | r <;> rw [hm] at h
    · obtain ⟨pre, suf, hl, ho, hn, ho2, hn2⟩ := ih h
      exact ⟨c :: pre, suf, by rw [List.cons_append, hl], ho, hn, ho2, hn2⟩
    · simp only [Option.some.injEq] at h
      subst h
      obtain ⟨suf, hl, ho, hn, ho2, hn2⟩ := matchAt_some (c :: cs) o n hm
      exact ⟨[], suf, by rw [List.nil_append, hl], ho, hn, ho2, hn2⟩

theorem searchGh_isSome_iff (l : List Char) :
    (searchGh l).isSome ↔ containsPattern l := by
  constructor
  · intro h
    rcases hx : searchGh l with _ | ⟨o, n⟩
    · rw [hx] at h
      simp at h
    · obtain ⟨pre, suf, hl, ho, hn, ho2, hn2⟩ := searchGh_some l o n hx
      exact ⟨pre, o, n, suf, hl, ho, hn, ho2, hn2⟩
  · rintro ⟨pre, o, n, suf, rfl, ho, hn, ho2, hn2⟩
    exact searchGh_append_isSome pre _ (matchAt_parts o n suf ho hn ho2 hn2)

/-- Counterexample to C6: in `github.com/o/a.gitb` the matched name
`a.gitb` has no trailing `.git` suffix, yet the reported name is `ab`,
because `replace(".git", "")` removes every occurrence of `.git`, not only a
trailing suffix. -/
theorem c6_interior_dotgit_removed :
    parse_url "https://github.com/o/a.gitb" = some ("o", "ab") ∧
    ("ab" : String) ≠ "a.gitb" :=
  ⟨by decide, by decide⟩

/-- C6 as amended: parsing succeeds exactly on inputs containing a
`github.com/<owner>/<name>` substring (owner and name nonempty runs of
non-slash characters); the reported name is the name of the leftmost match with
every occurrence of `".git"` removed (a trailing `.git` is stripped, but
interior occurrences are removed too); on all other inputs parsing fails,
the scan reports the Invalid URL error, and no request is issued. -/
theorem c6_parse_url_characterisation (s : String) (env : Env) (now : Int) :
    ((searchGh s.toList).isSome ↔ containsPattern s.toList) ∧
    (∀ ow rp, parse_url s = some (ow, rp) →
      ∃ o n, searchGh s.toList = some (o, n) ∧ ow = String.mk o ∧
        rp = String.mk (removeDotGit n)) ∧
    (¬ containsPattern s.toList →
      parse_url s = none ∧
      analyze s env now = ([("error", JVal.jstr "Invalid URL")], [])) := by
  refine ⟨searchGh_isSome_iff s.toList, ?_, ?_⟩
  · intro ow rp h
    unfold parse_url at h
    rcases hx : searchGh s.toList with _ | ⟨o, n⟩ <;> rw [hx] at h
    · exact Option.noConfusion h
    · replace h : some (String.mk o, String.mk (removeDotGit n)) = some (ow, rp) := h
      rw [Option.some.injEq, Prod.mk.injEq] at h
      exact ⟨o, n, rfl, h.1.symm, h.2.symm⟩
  · intro hnc
    have hs : searchGh s.toList = none := by
      rcases hx : searchGh s.toList with _ | r
      · rfl
      · exact absurd ((searchGh_isSome_iff s.toList).1 (by rw [hx]; rfl)) hnc
    have hp : parse_url s = none := by
      unfold parse_url
      rw [hs]
    exact ⟨hp, by simp [analyze, hp]⟩

/-- Witness for the amended C6 statement: a patternless input is rejected with
no request issued. -/
theorem c6_parse_url_characterisation_witness :
    parse_url "hello" = none ∧
    analyze "hello" envShared 0 = ([("error", JVal.jstr "Invalid URL")], []) :=
  (c6_parse_url_characterisation "hello" envShared 0).2.2
    (fun hc => absurd ((c6_parse_url_characterisation "hello" envShared 0).1.mpr hc)
      (by decide))
